import Mathlib

/-!
Verification of the sqlite-mcp-server gateway (sqlite_mcp_server.py).

The development shallowly embeds the four gateway operations
(list_tables, describe_table, get_schema, query) and the read-only
query guard.  Python strings are modelled as Lean strings; the guard
works on the character list of the input, because the Python code works
character-wise (strip, upper, regex word-boundary search).  Stateful
parts (database file presence, catalog contents, driver execution) are
modelled by an explicit environment record; an uncaught Python
exception is modelled as an Except.error result, a returned JSON
document as an Except.ok result carrying a structural document value.

Word characters are modelled over the ASCII range, matching the Python
regex class for word characters on ASCII input; Char.toUpper and the
whitespace set likewise model the Python functions on ASCII input.
-/

/-! ## Query Guard: lexical machinery (sqlite_mcp_server.py lines 194-218) -/

/-- ASCII whitespace stripped by the Python strip() call. -/
def isPyWhitespace (c : Char) : Bool :=
  c == ' ' || c == '\t' || c == '\n' || c == '\r' || c == '\x0b' || c == '\x0c'

/-- Strip leading and trailing whitespace, as Python strip(). -/
def trimChars (l : List Char) : List Char :=
  ((l.dropWhile isPyWhitespace).reverse.dropWhile isPyWhitespace).reverse

/-- The normalized text the guard scans: sql.strip().upper() (line 195). -/
def normalizeSql (sql : String) : List Char :=
  (trimChars sql.data).map Char.toUpper

/-- Word character of the regex word-boundary class (ASCII): letters, digits,
underscore.  An identifier character in the sense of the spec. -/
def isWordChar (c : Char) : Bool :=
  c.isAlphanum || c == '_'

/-- The character before a candidate match position is absent or a non-word
character (left regex word boundary). -/
def prevOk : Option Char → Bool
  | none => true
  | some c => !isWordChar c

/-- The text after a candidate match is empty or begins with a non-word
character (right regex word boundary). -/
def afterOk : List Char → Bool
  | [] => true
  | c :: _ => !isWordChar c

/-- The keyword matches at the current position with word boundaries on both
sides: this is one candidate position of re.search of a word-bounded keyword. -/
def matchHere (kw : List Char) (prev : Option Char) (s : List Char) : Bool :=
  prevOk prev && kw.isPrefixOf s && afterOk (s.drop kw.length)

/-- Scan every position of the text for a word-bounded occurrence of the
keyword, carrying the previous character for the left boundary.  This embeds
re.search of a word-bounded keyword (line 215). -/
def hasWordAux (kw : List Char) : Option Char → List Char → Bool
  | prev, [] => matchHere kw prev []
  | prev, c :: cs => matchHere kw prev (c :: cs) || hasWordAux kw (some c) cs

/-- The deny list of the guard, in source order (lines 199-203). -/
def forbiddenKeywords : List String :=
  ["INSERT", "UPDATE", "DELETE", "DROP", "CREATE", "ALTER",
   "TRUNCATE", "REPLACE", "ATTACH", "DETACH", "VACUUM",
   "REINDEX", "PRAGMA"]

/-- Rejection message of the SELECT/WITH check (line 208). -/
def prefixErrMsg : String :=
  "Only SELECT queries are allowed. Query must start with SELECT or WITH."

/-- Rejection message of the forbidden-keyword check (line 217). -/
def kwErrMsg (kw : String) : String :=
  "Query contains forbidden keyword: " ++ kw ++ ". Only read-only queries are allowed."

/-- Result of the guard on one query string. -/
inductive GuardResult
  | allow
  | reject (msg : String)
deriving DecidableEq

/-- Does the normalized text start with SELECT or WITH (line 206)? -/
def startsOk (up : List Char) : Bool :=
  "SELECT".data.isPrefixOf up || "WITH".data.isPrefixOf up

/-- First keyword of the deny list, in list order, with a word-bounded
occurrence in the normalized text (the loop of lines 213-218). -/
def findForbidden (up : List Char) : Option String :=
  forbiddenKeywords.find? (fun kw => hasWordAux kw.data none up)

/-- The read-only validation of the query tool (lines 194-218): the prefix
check runs first, then the deny-list scan. -/
def classify (sql : String) : GuardResult :=
  if startsOk (normalizeSql sql) then
    match findForbidden (normalizeSql sql) with
    | some kw => .reject (kwErrMsg kw)
    | none => .allow
  else .reject prefixErrMsg

/-! ## Specification-side predicate: whole-word occurrence

The claims speak of a keyword occurring as a whole word, bounded by
non-identifier characters (or the ends of the text) on both sides.  The
predicate below states exactly that, as an existential decomposition of the
text; it is then proved equivalent to the executable scanner. -/

/-- The keyword occurs in the text as a whole word: the text splits as
pre ++ kw ++ post where pre ends (if nonempty) in a non-word character and
post begins (if nonempty) with a non-word character. -/
def WholeWordIn (kw : String) (l : List Char) : Prop :=
  ∃ pre post, l = pre ++ kw.data ++ post ∧
    (∀ c, pre.getLast? = some c → isWordChar c = false) ∧
    (∀ c, post.head? = some c → isWordChar c = false)

/-- Generalisation of WholeWordIn used for the induction: the left boundary of
a match at the very start of the text is judged against a carried previous
character. -/
def WordOccursFrom (kw : List Char) (prev : Option Char) (l : List Char) : Prop :=
  ∃ pre post, l = pre ++ kw ++ post ∧
    (pre = [] → prevOk prev = true) ∧
    (∀ c, pre.getLast? = some c → isWordChar c = false) ∧
    (∀ c, post.head? = some c → isWordChar c = false)

theorem isPrefixOf_iff_exists : ∀ (p s : List Char), p.isPrefixOf s = true ↔ ∃ t, s = p ++ t := by
  intro p
  induction p with
  | nil => intro s; simp [List.isPrefixOf]
  | cons a as ih =>
    intro s
    cases s with
    | nil =>
      simp [List.isPrefixOf]
    | cons b bs =>
      simp only [List.isPrefixOf, Bool.and_eq_true, beq_iff_eq, ih bs]
      constructor
      · rintro ⟨rfl, t, rfl⟩
        exact ⟨t, rfl⟩
      · rintro ⟨t, ht⟩
        rw [List.cons_append] at ht
        cases ht
        exact ⟨rfl, t, rfl⟩

theorem afterOk_iff (l : List Char) :
    afterOk l = true ↔ ∀ c, l.head? = some c → isWordChar c = false := by
  cases l with
  | nil => simp [afterOk]
  | cons c cs => simp [afterOk]

theorem matchHere_iff (kw : List Char) (prev : Option Char) (s : List Char) :
    matchHere kw prev s = true ↔
      prevOk prev = true ∧
        ∃ post, s = kw ++ post ∧ (∀ c, post.head? = some c → isWordChar c = false) := by
  constructor
  · intro h
    rw [matchHere, Bool.and_eq_true, Bool.and_eq_true] at h
    obtain ⟨⟨h1, h2⟩, h3⟩ := h
    obtain ⟨t, rfl⟩ := (isPrefixOf_iff_exists kw s).mp h2
    rw [List.drop_left] at h3
    exact ⟨h1, t, rfl, (afterOk_iff t).mp h3⟩
  · rintro ⟨h1, t, rfl, h2⟩
    rw [matchHere, Bool.and_eq_true, Bool.and_eq_true]
    refine ⟨⟨h1, (isPrefixOf_iff_exists kw _).mpr ⟨t, rfl⟩⟩, ?_⟩
    rw [List.drop_left]
    exact (afterOk_iff t).mpr h2

theorem hasWordAux_iff (kw : List Char) (hk : kw ≠ []) :
    ∀ (s : List Char) (prev : Option Char),
      hasWordAux kw prev s = true ↔ WordOccursFrom kw prev s := by
  intro s
  induction s with
  | nil =>
    intro prev
    rw [hasWordAux, matchHere_iff]
    constructor
    · rintro ⟨_, t, ht, _⟩
      have h := ht.symm
      rw [List.append_eq_nil] at h
      exact absurd h.1 hk
    · rintro ⟨pre, post, hsplit, -, -, -⟩
      have h := hsplit.symm
      rw [List.append_eq_nil, List.append_eq_nil] at h
      exact absurd h.1.2 hk
  | cons c cs ih =>
    intro prev
    rw [hasWordAux, Bool.or_eq_true, ih (some c), matchHere_iff]
    constructor
    · rintro (⟨h1, post, hs, h2⟩ | ⟨pre, post, hs, hpre0, hlast, hhead⟩)
      · refine ⟨[], post, by simpa using hs, fun _ => h1, ?_, h2⟩
        intro d hd
        simp at hd
      · refine ⟨c :: pre, post, by simp [hs], by simp, ?_, hhead⟩
        intro d hd
        cases pre with
        | nil =>
          simp at hd
          subst hd
          have h := hpre0 rfl
          simp [prevOk] at h
          exact h
        | cons p ps =>
          rw [List.getLast?_cons_cons] at hd
          exact hlast d hd
    · rintro ⟨pre, post, hs, hpre0, hlast, hhead⟩
      cases pre with
      | nil =>
        left
        exact ⟨hpre0 rfl, post, by simpa using hs, hhead⟩
      | cons p ps =>
        right
        rw [List.cons_append, List.cons_append] at hs
        rw [List.cons.injEq] at hs
        obtain ⟨rfl, htail⟩ := hs
        refine ⟨ps, post, htail, ?_, ?_, hhead⟩
        · intro hps
          subst hps
          have h := hlast c (by simp)
          simp [prevOk, h]
        · intro d hd
          apply hlast
          cases ps with
          | nil => simp at hd
          | cons q qs => rw [List.getLast?_cons_cons]; exact hd

theorem hasWord_iff_wholeWord (kw : String) (hk : kw.data ≠ []) (l : List Char) :
    hasWordAux kw.data none l = true ↔ WholeWordIn kw l := by
  rw [hasWordAux_iff kw.data hk l none]
  constructor
  · rintro ⟨pre, post, hsplit, -, hlast, hhead⟩
    exact ⟨pre, post, hsplit, hlast, hhead⟩
  · rintro ⟨pre, post, hsplit, hlast, hhead⟩
    exact ⟨pre, post, hsplit, fun _ => rfl, hlast, hhead⟩

/-! ## Lexicographic string comparison and sorting

The catalog queries of list_tables and get_schema end in ORDER BY name,
which sorts ascending in the default binary collation.  The executable
comparison below is proved to agree with the lexicographic linear order
on String, so sortedness statements can be made against the standard
order. -/

/-- Executable lexicographic comparison on character lists. -/
def charListLe : List Char → List Char → Bool
  | [], _ => true
  | _ :: _, [] => false
  | a :: as, b :: bs =>
    if a < b then true
    else if b < a then false
    else charListLe as bs

/-- Executable lexicographic comparison on strings (binary collation on
clean code points, as the order of ORDER BY name). -/
def strLe (a b : String) : Bool :=
  charListLe a.data b.data

theorem charListLe_iff_not_lex :
    ∀ (l₁ l₂ : List Char), charListLe l₁ l₂ = true ↔ ¬ List.Lex (· < ·) l₂ l₁ := by
  intro l₁
  induction l₁ with
  | nil =>
    intro l₂
    simp only [charListLe]
    exact ⟨fun _ => List.Lex.not_nil_right _ _, fun _ => trivial⟩
  | cons a as ih =>
    intro l₂
    cases l₂ with
    | nil =>
      simp only [charListLe]
      constructor
      · intro h; cases h
      · intro h; exact absurd List.Lex.nil h
    | cons b bs =>
      simp only [charListLe]
      by_cases hab : a < b
      · rw [if_pos hab]
        constructor
        · intro _ h
          cases h with
          | rel hba => exact absurd hab (asymm hba)
          | cons htl => exact absurd hab (lt_irrefl _)
        · intro _; rfl
      · rw [if_neg hab]
        by_cases hba : b < a
        · rw [if_pos hba]
          constructor
          · intro h; cases h
          · intro h; exact absurd (List.Lex.rel hba) h
        · rw [if_neg hba]
          have hEq : a = b := le_antisymm (le_of_not_lt hba) (le_of_not_lt hab)
          subst hEq
          rw [ih bs]
          constructor
          · intro h hcontra
            cases hcontra with
            | rel hr => exact absurd hr hba
            | cons htl => exact h htl
          · intro h hlex
            exact h (List.Lex.cons hlex)

theorem strLe_iff (a b : String) : strLe a b = true ↔ a ≤ b := by
  rw [String.le_iff_toList_le]
  rw [← not_lt]
  show charListLe a.data b.data = true ↔ ¬ b.toList < a.toList
  exact charListLe_iff_not_lex a.data b.data

theorem strLe_total (a b : String) : strLe a b = true ∨ strLe b a = true := by
  rw [strLe_iff, strLe_iff]
  exact le_total a b

/-- Insertion into a sorted list, ascending by strLe. -/
def insertStr (x : String) : List String → List String
  | [] => [x]
  | y :: ys => if strLe x y then x :: y :: ys else y :: insertStr x ys

/-- Insertion sort, ascending by strLe: the model of ORDER BY name. -/
def sortStrings : List String → List String
  | [] => []
  | x :: xs => insertStr x (sortStrings xs)

theorem mem_insertStr (x b : String) :
    ∀ l, b ∈ insertStr x l ↔ b = x ∨ b ∈ l := by
  intro l
  induction l with
  | nil => simp [insertStr]
  | cons y ys ih =>
    simp only [insertStr]
    by_cases h : strLe x y
    · rw [if_pos h]; simp
    · rw [if_neg h]
      simp only [List.mem_cons, ih]
      tauto

theorem sorted_insertStr (x : String) :
    ∀ l, l.Pairwise (· ≤ ·) → (insertStr x l).Pairwise (· ≤ ·) := by
  intro l
  induction l with
  | nil => intro _; simp [insertStr]
  | cons y ys ih =>
    intro hp
    rw [List.pairwise_cons] at hp
    obtain ⟨hy, hys⟩ := hp
    simp only [insertStr]
    by_cases h : strLe x y
    · rw [if_pos h]
      rw [List.pairwise_cons]
      refine ⟨?_, List.pairwise_cons.mpr ⟨hy, hys⟩⟩
      intro b hb
      rcases List.mem_cons.mp hb with rfl | hb2
      · exact (strLe_iff x b).mp h
      · exact le_trans ((strLe_iff x y).mp h) (hy b hb2)
    · rw [if_neg h]
      rw [List.pairwise_cons]
      constructor
      · intro b hb
        rcases (mem_insertStr x b ys).mp hb with rfl | hb2
        · rcases strLe_total b y with h2 | h2
          · exact absurd h2 h
          · exact (strLe_iff y b).mp h2
        · exact hy b hb2
      · exact ih hys

theorem sorted_sortStrings : ∀ l, (sortStrings l).Pairwise (· ≤ ·) := by
  intro l
  induction l with
  | nil => simp [sortStrings]
  | cons x xs ih => exact sorted_insertStr x _ ih

theorem mem_sortStrings (b : String) : ∀ l, b ∈ sortStrings l ↔ b ∈ l := by
  intro l
  induction l with
  | nil => simp [sortStrings]
  | cons x xs ih =>
    simp only [sortStrings, mem_insertStr, List.mem_cons, ih]

/-! ## Data model: catalog, driver values, documents, environment -/

/-- A plain SQLite storage value.  Floating point reals are modelled as
rational numbers; the claims under verification never depend on float
rounding. -/
inductive SqlValue
  | vnull
  | vint (i : Int)
  | vreal (q : Rat)
  | vtext (s : String)
  | vblob (bytes : List Nat)
deriving DecidableEq

/-- One row of PRAGMA table_info for a table. -/
structure ColumnRow where
  cname : String
  ctype : String
  notnull : Bool
  dflt : Option String
  pk : Nat
deriving DecidableEq

/-- One row of PRAGMA foreign_key_list for a table. -/
structure FkRow where
  fromCol : String
  refTable : String
  toCol : String
deriving DecidableEq

/-- One row of PRAGMA index_list together with its index_info columns. -/
structure IdxRow where
  iname : String
  iunique : Bool
  icolumns : List String
deriving DecidableEq

/-- One row of sqlite_master with type table: name, original CREATE text,
and the catalog metadata reachable from it. -/
structure TableRow where
  name : String
  sql : String
  columns : List ColumnRow
  foreignKeys : List FkRow
  indexes : List IdxRow
deriving DecidableEq

/-- The backing store: the tables of its catalog, in rowid order. -/
structure Db where
  tables : List TableRow
deriving DecidableEq

/-- A column entry of the describe_table response (lines 107-113). -/
structure ColumnDesc where
  name : String
  ctype : String
  nullable : Bool
  dflt : Option String
  primaryKey : Bool
deriving DecidableEq

/-- A foreign-key entry of the describe_table response (lines 119-123). -/
structure FkDesc where
  column : String
  referencesTable : String
  referencesColumn : String
deriving DecidableEq

/-- An index entry of the describe_table response (lines 133-137). -/
structure IdxDesc where
  name : String
  unique : Bool
  columns : List String
deriving DecidableEq

/-- A structured response document of the gateway; json.dumps serialization
is outer glue and is not modelled. -/
inductive Doc
  | errorDoc (msg : String)
  | tablesDoc (tables : List String)
  | schemaDoc (entries : List (String × String))
  | describeDoc (table : String) (columns : List ColumnDesc)
      (foreignKeys : List FkDesc) (indexes : List IdxDesc)
  | queryDoc (columns : List String) (rows : List (List SqlValue)) (rowCount : Nat)
deriving DecidableEq

/-- What conn.execute of a user query yields: the cursor description (none
when the driver reports no column metadata) and the fetched rows. -/
structure DriverOut where
  description : Option (List String)
  rows : List (List SqlValue)
deriving DecidableEq

/-- A Python exception escaping a tool function uncaught: either the
FileNotFoundError of get_connection (lines 47-51), raised outside every try
block, or a driver-level exception raised by the catalog interactions of the
three metadata tools, whose try blocks have a finally but no except clause
(lines 67-75, 94-146, 161-171) and therefore let it propagate. -/
inductive GatewayExn
  | fileNotFound
  | driverError (msg : String)
deriving DecidableEq

/-- Observable side effects of one operation call, in order. -/
inductive CatalogEvent
  | connAcquired
  | existenceCheck (name : String)
  | tableInfo (name : String)
  | foreignKeyList (name : String)
  | indexList (name : String)
  | indexInfo (idx : String)
  | execUserSql (sql : String)
deriving DecidableEq

/-- The per-call environment: whether the database file exists, the catalog
contents, the driver behaviour on a user query, and whether the database
interactions of the metadata tools fault on this call.  exec returns either
an error message (a raised driver exception) or a DriverOut, together with
the store contents afterwards.  catalogFault is the message of a driver
exception raised during the catalog work of list_tables, describe_table or
get_schema on this call (connection setup after the existence test, or any
catalog read: a locked or corrupt database, for instance); none means those
interactions all succeed. -/
structure Env where
  dbExists : Bool
  db : Db
  exec : String → Db → (Except String DriverOut) × Db
  catalogFault : Option String

/-! ## The four gateway operations -/

/-- One single-quote character, by code point. -/
def squote : String := String.singleton (Char.ofNat 39)

/-- The catalog filter NOT LIKE with pattern sqlite-underscore-percent used by
list_tables and get_schema (lines 69 and 163): LIKE is case-insensitive on
ASCII and the underscore wildcard matches any one character, so a name is
filtered out exactly when it has at least seven characters and its first six
characters fold to sqlite. -/
def sqliteInternalName (name : String) : Bool :=
  decide (7 ≤ name.data.length) && ((name.data.take 6).map Char.toLower == "sqlite".data)

/-- Table names surviving the catalog filter, in catalog order. -/
def userTableNames (db : Db) : List String :=
  (db.tables.map (fun t => t.name)).filter (fun n => !sqliteInternalName n)

/-- list_tables (lines 58-75): connection acquisition raises when the file is
absent; a driver exception during the catalog work propagates uncaught, the
try block having only a finally clause; otherwise the filtered, name-sorted
catalog names are returned. -/
def listTablesOp (env : Env) : Except GatewayExn Doc :=
  if env.dbExists then
    match env.catalogFault with
    | some e => .error (.driverError e)
    | none => .ok (.tablesDoc (sortStrings (userTableNames env.db)))
  else .error .fileNotFound

/-- Insertion into a list of schema entries sorted ascending by table name. -/
def insertEntry (x : String × String) : List (String × String) → List (String × String)
  | [] => [x]
  | y :: ys => if strLe x.1 y.1 then x :: y :: ys else y :: insertEntry x ys

/-- Insertion sort of schema entries by table name: ORDER BY name of line 163. -/
def sortEntries : List (String × String) → List (String × String)
  | [] => []
  | x :: xs => insertEntry x (sortEntries xs)

/-- get_schema (lines 149-171): the name-to-CREATE-text mapping over the
filtered catalog, in name order; like list_tables, a driver exception during
the catalog work propagates uncaught. -/
def getSchemaOp (env : Env) : Except GatewayExn Doc :=
  if env.dbExists then
    match env.catalogFault with
    | some e => .error (.driverError e)
    | none =>
      .ok (.schemaDoc (sortEntries
        ((env.db.tables.filter (fun t => !sqliteInternalName t.name)).map
          (fun t => (t.name, t.sql)))))
  else .error .fileNotFound

/-- Projection of PRAGMA table_info rows (lines 104-113): nullable is the
negation of notnull, primary_key is the truthiness of the pk integer. -/
def describeColumns (t : TableRow) : List ColumnDesc :=
  t.columns.map (fun c => ⟨c.cname, c.ctype, !c.notnull, c.dflt, decide (c.pk ≠ 0)⟩)

/-- Projection of PRAGMA foreign_key_list rows (lines 116-123). -/
def describeFks (t : TableRow) : List FkDesc :=
  t.foreignKeys.map (fun f => ⟨f.fromCol, f.refTable, f.toCol⟩)

/-- Projection of PRAGMA index_list plus per-index index_info (lines 126-137). -/
def describeIdxs (t : TableRow) : List IdxDesc :=
  t.indexes.map (fun i => ⟨i.iname, i.iunique, i.icolumns⟩)

/-- The not-found error text of describe_table (line 101). -/
def tableNotFoundMsg (name : String) : String :=
  "Table " ++ squote ++ name ++ squote ++ " not found"

/-- describe_table (lines 78-146), with its observable catalog accesses: a
driver exception during the catalog work propagates uncaught; otherwise the
existence check runs first and short-circuits to the error document; only on
an existing table do the three PRAGMA lookups and the per-index lookups run. -/
def describeTableOp (env : Env) (tableName : String) :
    Except GatewayExn Doc × List CatalogEvent :=
  if env.dbExists then
    match env.catalogFault with
    -- the access trace of a faulted call depends on where the fault hit
    -- (connection setup or one of the reads) and is not modelled
    | some e => (.error (.driverError e), [])
    | none =>
    match env.db.tables.find? (fun t => t.name == tableName) with
    | none =>
        (.ok (.errorDoc (tableNotFoundMsg tableName)),
         [.connAcquired, .existenceCheck tableName])
    | some t =>
        (.ok (.describeDoc tableName (describeColumns t) (describeFks t) (describeIdxs t)),
         [.connAcquired, .existenceCheck tableName, .tableInfo tableName,
          .foreignKeyList tableName, .indexList tableName]
           ++ t.indexes.map (fun i => .indexInfo i.iname))
  else (.error .fileNotFound, [])

/-- Result projection of the query tool (lines 222-236): column names from the
cursor description when present, rows converted to plain lists, and row_count
computed as the length of the converted row list.  A raised driver error is
caught and becomes an error document (lines 238-241). -/
def projectDoc : Except String DriverOut → Doc
  | .error e => .errorDoc ("SQL error: " ++ e)
  | .ok o => .queryDoc (o.description.getD []) o.rows o.rows.length

/-- query (lines 174-243): the guard runs before any connection is acquired;
a rejection is returned as a document with the store untouched.  An allowed
query acquires the connection (raising when the file is absent) and passes
the original, unnormalized text to the driver. -/
def queryOp (env : Env) (sql : String) :
    (Except GatewayExn Doc × Db) × List CatalogEvent :=
  match classify sql with
  | .reject msg => ((.ok (.errorDoc msg), env.db), [])
  | .allow =>
    if env.dbExists then
      (((.ok (projectDoc (env.exec sql env.db).1)), (env.exec sql env.db).2),
       [.connAcquired, .execUserSql sql])
    else ((.error .fileNotFound, env.db), [])

deriving instance DecidableEq for Except

/-! ## Concrete fixtures for witnesses and counterexamples -/

/-- A driver that answers every query with one column ONE and one row [1]. -/
def sampleExec : String → Db → (Except String DriverOut) × Db :=
  fun _ d => (.ok ⟨some ["ONE"], [[.vint 1]]⟩, d)

/-- A driver whose execution always raises with message boom. -/
def boomExec : String → Db → (Except String DriverOut) × Db :=
  fun _ d => (.error "boom", d)

/-- The users table of the concrete scenarios. -/
def usersTable : TableRow :=
  ⟨"users", "CREATE TABLE users (id INTEGER PRIMARY KEY)",
   [⟨"id", "INTEGER", false, none, 1⟩], [], []⟩

/-- The companies table of the concrete scenarios. -/
def companiesTable : TableRow :=
  ⟨"companies", "CREATE TABLE companies (id INTEGER PRIMARY KEY)",
   [⟨"id", "INTEGER", false, none, 1⟩], [], []⟩

/-- Store with tables users and companies, file present, no faults. -/
def envScenario : Env := ⟨true, ⟨[usersTable, companiesTable]⟩, sampleExec, none⟩

/-- Store with no tables at all, file present, no faults. -/
def envEmptyDb : Env := ⟨true, ⟨[]⟩, sampleExec, none⟩

/-- The backing database file is absent. -/
def envNoDb : Env := ⟨false, ⟨[]⟩, sampleExec, none⟩

/-- File present, but the driver raises on every execution. -/
def envBoom : Env := ⟨true, ⟨[]⟩, boomExec, none⟩

/-- File present, but the catalog interactions of the metadata tools raise a
database-is-locked exception on this call. -/
def envLocked : Env := ⟨true, ⟨[usersTable]⟩, sampleExec, some "database is locked"⟩

/-! ## Helper lemmas shared by the claims -/

theorem forbidden_data_ne_nil : ∀ kw ∈ forbiddenKeywords, kw.data ≠ [] := by decide

theorem ne_append_of_isPrefixOf_eq_false {p s : List Char}
    (h : p.isPrefixOf s = false) : ∀ t, s ≠ p ++ t := by
  intro t ht
  have h2 := (isPrefixOf_iff_exists p s).mpr ⟨t, ht⟩
  rw [h] at h2
  exact Bool.false_ne_true h2

theorem startsOk_eq_false {sql : String}
    (hsel : ∀ t, normalizeSql sql ≠ "SELECT".data ++ t)
    (hwith : ∀ t, normalizeSql sql ≠ "WITH".data ++ t) :
    startsOk (normalizeSql sql) = false := by
  rw [startsOk, Bool.or_eq_false_iff]
  constructor
  · cases h : "SELECT".data.isPrefixOf (normalizeSql sql)
    · rfl
    · obtain ⟨t, ht⟩ := (isPrefixOf_iff_exists _ _).mp h
      exact absurd ht (hsel t)
  · cases h : "WITH".data.isPrefixOf (normalizeSql sql)
    · rfl
    · obtain ⟨t, ht⟩ := (isPrefixOf_iff_exists _ _).mp h
      exact absurd ht (hwith t)

/-! ## The claims -/

/-- Claim C2 (amended): query of DROP TABLE users returns the error document
with the must-start-with-SELECT-or-WITH message (the prefix check fires before
the keyword scan), the store is unchanged, and no connection or driver
execution happens. -/
theorem claim_C2_amended (env : Env) :
    queryOp env "DROP TABLE users" = ((.ok (.errorDoc prefixErrMsg), env.db), []) := by
  have h : classify "DROP TABLE users" = .reject prefixErrMsg := by decide
  simp [queryOp, h]

/-- Claim C2 counterexample: at a store holding the users table, query of
DROP TABLE users returns the prefix-check error document, whose message is not
the forbidden-keyword message naming DROP that the claim states. -/
theorem claim_C2_counterexample :
    (queryOp envScenario "DROP TABLE users").1.1 = .ok (.errorDoc prefixErrMsg) ∧
    prefixErrMsg ≠ kwErrMsg "DROP" := by
  constructor
  · decide
  · decide

/-- Claim C4: a query whose trimmed, case-folded text does not begin with
SELECT and does not begin with WITH is rejected by the guard with the
must-start-with-SELECT-or-WITH error, the store is unchanged, and the query
is never passed to the driver (empty event trace). -/
theorem claim_C4 (env : Env) (sql : String)
    (hsel : ∀ t, normalizeSql sql ≠ "SELECT".data ++ t)
    (hwith : ∀ t, normalizeSql sql ≠ "WITH".data ++ t) :
    classify sql = .reject prefixErrMsg ∧
    queryOp env sql = ((.ok (.errorDoc prefixErrMsg), env.db), []) := by
  have hso := startsOk_eq_false hsel hwith
  have hcl : classify sql = .reject prefixErrMsg := by
    rw [classify, hso]
    simp
  exact ⟨hcl, by simp [queryOp, hcl]⟩

/-- Claim C4 witness: DELETE FROM users is rejected with the prefix message
and never reaches the driver, at a concrete environment. -/
theorem claim_C4_witness :
    classify "DELETE FROM users" = .reject prefixErrMsg ∧
    queryOp envScenario "DELETE FROM users" =
      ((.ok (.errorDoc prefixErrMsg), envScenario.db), []) :=
  claim_C4 envScenario "DELETE FROM users"
    (ne_append_of_isPrefixOf_eq_false (by decide))
    (ne_append_of_isPrefixOf_eq_false (by decide))

/-- Claim C9: any query the guard rejects, for whichever reason, receives its
structured rejection document with the store unchanged and an empty event
trace: no connection is acquired, so this holds even when the backing
database file is absent. -/
theorem claim_C9 (env : Env) (sql : String) (msg : String)
    (h : classify sql = .reject msg) :
    queryOp env sql = ((.ok (.errorDoc msg), env.db), []) := by
  simp [queryOp, h]

/-- Claim C9 witness: a keyword-rejected query receives its rejection document
at an environment whose backing database file is absent. -/
theorem claim_C9_witness :
    envNoDb.dbExists = false ∧
    classify "SELECT 1; UPDATE x" = .reject (kwErrMsg "UPDATE") ∧
    queryOp envNoDb "SELECT 1; UPDATE x" =
      ((.ok (.errorDoc (kwErrMsg "UPDATE")), envNoDb.db), []) :=
  ⟨rfl, by decide, claim_C9 envNoDb "SELECT 1; UPDATE x" (kwErrMsg "UPDATE") (by decide)⟩

/-- Claim C8: for every query the guard allows, the driver is invoked on the
exact original input text, not on the trimmed or uppercased normalization,
and the event trace records that original text. -/
theorem claim_C8 (env : Env) (sql : String)
    (hallow : classify sql = .allow) (hdb : env.dbExists = true) :
    queryOp env sql =
      ((.ok (projectDoc (env.exec sql env.db).1), (env.exec sql env.db).2),
       [.connAcquired, .execUserSql sql]) := by
  simp [queryOp, hallow, hdb]

/-- Claim C8 witness: a lowercase query is allowed and executed verbatim. -/
theorem claim_C8_witness :
    classify "select name from users" = .allow ∧
    queryOp envScenario "select name from users" =
      ((.ok (projectDoc (envScenario.exec "select name from users" envScenario.db).1),
        (envScenario.exec "select name from users" envScenario.db).2),
       [.connAcquired, .execUserSql "select name from users"]) :=
  ⟨by decide, claim_C8 envScenario "select name from users" (by decide) rfl⟩

/-- Claim C10: the prefix check of the guard is a plain string-prefix test:
whenever the trimmed, uppercased text begins with the characters SELECT or
WITH, even as part of a longer first token, the guard never rejects with the
prefix message, so rejection can come only from the keyword scan; in
particular SELECTION 1 and WITHDRAWAL 2 are allowed. -/
theorem claim_C10 :
    (∀ sql : String,
      ((∃ t, normalizeSql sql = "SELECT".data ++ t) ∨
       (∃ t, normalizeSql sql = "WITH".data ++ t)) →
      classify sql = .allow ∨
        ∃ kw ∈ forbiddenKeywords, classify sql = .reject (kwErrMsg kw)) ∧
    classify "SELECTION 1" = .allow ∧
    classify "WITHDRAWAL 2" = .allow := by
  refine ⟨?_, by decide, by decide⟩
  intro sql h
  have hso : startsOk (normalizeSql sql) = true := by
    rw [startsOk, Bool.or_eq_true]
    rcases h with ⟨t, ht⟩ | ⟨t, ht⟩
    · exact Or.inl ((isPrefixOf_iff_exists _ _).mpr ⟨t, ht⟩)
    · exact Or.inr ((isPrefixOf_iff_exists _ _).mpr ⟨t, ht⟩)
  rw [classify, hso]
  cases hf : findForbidden (normalizeSql sql) with
  | none => exact Or.inl rfl
  | some kw =>
    refine Or.inr ⟨kw, ?_, rfl⟩
    exact List.mem_of_find?_eq_some hf

/-- Claim C10 witness: a first token extending SELECT passes the prefix
check, so the result is allow or a keyword rejection. -/
theorem claim_C10_witness :
    classify "SELECTION 77" = .allow ∨
      ∃ kw ∈ forbiddenKeywords, classify "SELECTION 77" = .reject (kwErrMsg kw) :=
  claim_C10.1 "SELECTION 77" (Or.inl ⟨"ION 77".data, by decide⟩)

/-- Claim C3: any query whose normalized text contains one of the thirteen
deny-listed keywords as a whole word, bounded by non-identifier characters or
text ends on both sides, is rejected by the guard; any query whose normalized
text contains no deny-listed keyword as a whole word is never rejected by the
keyword scan: it is allowed, or rejected only by the prefix check. -/
theorem claim_C3 (sql : String) :
    ((∃ kw ∈ forbiddenKeywords, WholeWordIn kw (normalizeSql sql)) →
      ∃ msg, classify sql = .reject msg) ∧
    ((∀ kw ∈ forbiddenKeywords, ¬ WholeWordIn kw (normalizeSql sql)) →
      classify sql = .allow ∨ classify sql = .reject prefixErrMsg) := by
  constructor
  · rintro ⟨kw, hmem, hww⟩
    cases hso : startsOk (normalizeSql sql) with
    | false =>
      refine ⟨prefixErrMsg, ?_⟩
      rw [classify, hso]
      simp
    | true =>
      have hscan : hasWordAux kw.data none (normalizeSql sql) = true :=
        (hasWord_iff_wholeWord kw (forbidden_data_ne_nil kw hmem) _).mpr hww
      have hsome : (findForbidden (normalizeSql sql)).isSome := by
        rw [findForbidden, List.find?_isSome]
        exact ⟨kw, hmem, hscan⟩
      obtain ⟨kw2, hf⟩ := Option.isSome_iff_exists.mp hsome
      refine ⟨kwErrMsg kw2, ?_⟩
      rw [classify, hso, hf]
      simp
  · intro hnone
    have hf : findForbidden (normalizeSql sql) = none := by
      rw [findForbidden, List.find?_eq_none]
      intro kw hmem hscan
      exact hnone kw hmem
        ((hasWord_iff_wholeWord kw (forbidden_data_ne_nil kw hmem) _).mp hscan)
    cases hso : startsOk (normalizeSql sql) with
    | false =>
      right
      rw [classify, hso]
      simp
    | true =>
      left
      rw [classify, hso, hf]
      simp

/-- Claim C3 witness: a query holding DROP as a whole word is rejected; a
query whose only deny-listed fragments sit inside the longer identifiers
created_at and updated_by is not rejected by the keyword scan. -/
theorem claim_C3_witness :
    (∃ msg, classify "SELECT a, DROP FROM t" = .reject msg) ∧
    (classify "SELECT created_at, updated_by FROM t" = .allow ∨
     classify "SELECT created_at, updated_by FROM t" = .reject prefixErrMsg) := by
  constructor
  · refine (claim_C3 "SELECT a, DROP FROM t").1 ⟨"DROP", by decide, ?_⟩
    exact (hasWord_iff_wholeWord "DROP" (by decide) _).mp (by decide)
  · refine (claim_C3 "SELECT created_at, updated_by FROM t").2 ?_
    have hscan : ∀ kw ∈ forbiddenKeywords,
        hasWordAux kw.data none (normalizeSql "SELECT created_at, updated_by FROM t") = false := by
      decide
    intro kw hmem hww
    have h := (hasWord_iff_wholeWord kw (forbidden_data_ne_nil kw hmem) _).mpr hww
    rw [hscan kw hmem] at h
    exact Bool.false_ne_true h

/-- Claim C5: whenever the query operation returns a success document, its
row count equals the length of its row list (it is computed from the fetched
rows; the driver reports no count in the first place), and, provided the
driver only returns rows matching its column metadata in width, every row of
the document has exactly as many values as there are column names. -/
theorem claim_C5 (env : Env) (sql : String)
    (hwf : ∀ s d o, (env.exec s d).1 = .ok o →
      ∀ r ∈ o.rows, r.length = (o.description.getD []).length)
    (cols : List String) (rows : List (List SqlValue)) (n : Nat)
    (hres : (queryOp env sql).1.1 = .ok (.queryDoc cols rows n)) :
    n = rows.length ∧ ∀ r ∈ rows, r.length = cols.length := by
  rw [queryOp] at hres
  cases hcl : classify sql with
  | reject msg =>
    rw [hcl] at hres
    simp at hres
  | allow =>
    rw [hcl] at hres
    cases hdb : env.dbExists with
    | false =>
      rw [hdb] at hres
      simp at hres
    | true =>
      rw [hdb] at hres
      simp only [if_true] at hres
      cases hexec : (env.exec sql env.db).1 with
      | error e =>
        rw [hexec] at hres
        simp [projectDoc] at hres
      | ok o =>
        rw [hexec] at hres
        simp only [projectDoc, Except.ok.injEq, Doc.queryDoc.injEq] at hres
        obtain ⟨hcols, hrows, hn⟩ := hres
        subst hcols
        subst hrows
        subst hn
        exact ⟨rfl, hwf sql env.db o hexec⟩

/-- Claim C5 witness: a concrete allowed query against a width-respecting
driver yields a document whose count is the row-list length and whose single
row has the width of the column list. -/
theorem claim_C5_witness :
    (1 : Nat) = [[SqlValue.vint 1]].length ∧
    ∀ r ∈ [[SqlValue.vint 1]], r.length = (["ONE"] : List String).length := by
  refine claim_C5 envEmptyDb "SELECT 1" ?_ ["ONE"] [[SqlValue.vint 1]] 1 (by decide)
  intro s d o h
  simp only [envEmptyDb, sampleExec] at h
  rw [Except.ok.injEq] at h
  subst h
  decide

/-- Claim C6: describe_table on a name absent from the catalog, on a call
whose catalog interactions do not fault, returns the not-found error document
for that name, after only the connection acquisition and the existence check:
no column, foreign-key, index, or index-column lookup occurs. -/
theorem claim_C6 (env : Env) (name : String)
    (hdb : env.dbExists = true)
    (hfault : env.catalogFault = none)
    (habsent : ∀ t ∈ env.db.tables, t.name ≠ name) :
    describeTableOp env name =
      (.ok (.errorDoc (tableNotFoundMsg name)), [.connAcquired, .existenceCheck name]) ∧
    (∀ n2, CatalogEvent.tableInfo n2 ∉ (describeTableOp env name).2) ∧
    (∀ n2, CatalogEvent.foreignKeyList n2 ∉ (describeTableOp env name).2) ∧
    (∀ n2, CatalogEvent.indexList n2 ∉ (describeTableOp env name).2) ∧
    (∀ n2, CatalogEvent.indexInfo n2 ∉ (describeTableOp env name).2) := by
  have hfind : env.db.tables.find? (fun t => t.name == name) = none := by
    rw [List.find?_eq_none]
    intro t ht
    simpa using habsent t ht
  have hmain : describeTableOp env name =
      (.ok (.errorDoc (tableNotFoundMsg name)), [.connAcquired, .existenceCheck name]) := by
    rw [describeTableOp, hdb, hfault, hfind]
    simp
  refine ⟨hmain, ?_, ?_, ?_, ?_⟩ <;>
    · intro n2
      rw [hmain]
      simp

/-- Claim C6 witness: describing the absent table nonexistent on the concrete
store returns only the not-found document after the existence check. -/
theorem claim_C6_witness :
    describeTableOp envScenario "nonexistent" =
      (.ok (.errorDoc (tableNotFoundMsg "nonexistent")),
       [.connAcquired, .existenceCheck "nonexistent"]) ∧
    (∀ n2, CatalogEvent.tableInfo n2 ∉ (describeTableOp envScenario "nonexistent").2) ∧
    (∀ n2, CatalogEvent.foreignKeyList n2 ∉ (describeTableOp envScenario "nonexistent").2) ∧
    (∀ n2, CatalogEvent.indexList n2 ∉ (describeTableOp envScenario "nonexistent").2) ∧
    (∀ n2, CatalogEvent.indexInfo n2 ∉ (describeTableOp envScenario "nonexistent").2) :=
  claim_C6 envScenario "nonexistent" rfl rfl (by decide)

/-- Claim C7: with the database file present and the catalog interactions of
the call not faulting, list_tables returns exactly the catalog table names
surviving the internal-name filter, sorted ascending in the lexicographic
order on strings; an empty store yields the empty tables document rather
than an error, and the store holding users and companies yields companies
before users. -/
theorem claim_C7 :
    (∀ env : Env, env.dbExists = true → env.catalogFault = none →
      ∃ l, listTablesOp env = .ok (.tablesDoc l) ∧
        l.Pairwise (· ≤ ·) ∧
        (∀ n, n ∈ l ↔
          ((∃ t ∈ env.db.tables, t.name = n) ∧ sqliteInternalName n = false))) ∧
    listTablesOp envEmptyDb = .ok (.tablesDoc []) ∧
    listTablesOp envScenario = .ok (.tablesDoc ["companies", "users"]) := by
  refine ⟨?_, by decide, by decide⟩
  intro env hdb hfault
  refine ⟨sortStrings (userTableNames env.db), by rw [listTablesOp, hdb, hfault]; simp,
    sorted_sortStrings _, ?_⟩
  intro n
  rw [mem_sortStrings, userTableNames, List.mem_filter]
  constructor
  · rintro ⟨hmem, hint⟩
    rw [List.mem_map] at hmem
    obtain ⟨t, ht, rfl⟩ := hmem
    rw [Bool.not_eq_true'] at hint
    exact ⟨⟨t, ht, rfl⟩, hint⟩
  · rintro ⟨⟨t, ht, rfl⟩, hint⟩
    refine ⟨List.mem_map.mpr ⟨t, ht, rfl⟩, ?_⟩
    rw [hint]
    rfl

/-- Claim C7 witness: the general part instantiated at the users-companies
store: the returned list is sorted and holds exactly the user table names. -/
theorem claim_C7_witness :
    ∃ l, listTablesOp envScenario = .ok (.tablesDoc l) ∧
      l.Pairwise (· ≤ ·) ∧
      (∀ n, n ∈ l ↔
        ((∃ t ∈ envScenario.db.tables, t.name = n) ∧ sqliteInternalName n = false)) :=
  claim_C7.1 envScenario rfl rfl

/-- Claim C1 (amended): guard rejections, driver execution errors inside the
query tool, and the missing-table case of describe_table are all returned as
structured error documents; but when the backing database file is absent,
each of the four operations raises the FileNotFoundError of get_connection
uncaught past the facade instead of returning an error document, the sole
exception being a query the guard rejects, whose rejection document is
produced before any connection is acquired; and a driver-level failure
during the catalog work with the file present (a locked or corrupt database,
or failed connection setup) likewise propagates uncaught out of list_tables,
describe_table and get_schema, whose try blocks have a finally but no except
clause; when no such catalog failure occurs, those three operations return
documents. -/
theorem claim_C1_amended :
    (∀ env : Env, env.dbExists = false →
      listTablesOp env = .error .fileNotFound ∧
      getSchemaOp env = .error .fileNotFound ∧
      (∀ name, (describeTableOp env name).1 = .error .fileNotFound) ∧
      (∀ sql, classify sql = .allow → (queryOp env sql).1.1 = .error .fileNotFound)) ∧
    (∀ (env : Env) (sql msg : String), classify sql = .reject msg →
      (queryOp env sql).1.1 = .ok (.errorDoc msg)) ∧
    (∀ (env : Env) (sql e : String), env.dbExists = true →
      (env.exec sql env.db).1 = .error e → classify sql = .allow →
      (queryOp env sql).1.1 = .ok (.errorDoc ("SQL error: " ++ e))) ∧
    (∀ (env : Env) (name : String), env.dbExists = true →
      env.catalogFault = none →
      (∀ t ∈ env.db.tables, t.name ≠ name) →
      (describeTableOp env name).1 = .ok (.errorDoc (tableNotFoundMsg name))) ∧
    (∀ (env : Env) (e : String), env.dbExists = true → env.catalogFault = some e →
      listTablesOp env = .error (.driverError e) ∧
      getSchemaOp env = .error (.driverError e) ∧
      (∀ name, (describeTableOp env name).1 = .error (.driverError e))) ∧
    (∀ env : Env, env.dbExists = true → env.catalogFault = none →
      (∃ d, listTablesOp env = .ok d) ∧
      (∃ d, getSchemaOp env = .ok d) ∧
      (∀ name, ∃ d, (describeTableOp env name).1 = .ok d)) := by
  refine ⟨?_, ?_, ?_, ?_, ?_, ?_⟩
  · intro env hdb
    refine ⟨by rw [listTablesOp, hdb]; simp, by rw [getSchemaOp, hdb]; simp, ?_, ?_⟩
    · intro name
      rw [describeTableOp, hdb]
      simp
    · intro sql hallow
      rw [queryOp, hallow]
      rw [hdb]
      simp
  · intro env sql msg h
    simp [queryOp, h]
  · intro env sql e hdb hexec hallow
    rw [queryOp, hallow, hdb]
    simp [hexec, projectDoc]
  · intro env name hdb hfault habsent
    have hfind : env.db.tables.find? (fun t => t.name == name) = none := by
      rw [List.find?_eq_none]
      intro t ht
      simpa using habsent t ht
    rw [describeTableOp, hdb, hfault, hfind]
    simp
  · intro env e hdb hfault
    refine ⟨by rw [listTablesOp, hdb, hfault]; simp, by rw [getSchemaOp, hdb, hfault]; simp, ?_⟩
    intro name
    rw [describeTableOp, hdb, hfault]
    simp
  · intro env hdb hfault
    refine ⟨⟨.tablesDoc (sortStrings (userTableNames env.db)),
        by rw [listTablesOp, hdb, hfault]; simp⟩,
      ⟨.schemaDoc (sortEntries
        ((env.db.tables.filter (fun t => !sqliteInternalName t.name)).map
          (fun t => (t.name, t.sql)))), by rw [getSchemaOp, hdb, hfault]; simp⟩, ?_⟩
    intro name
    rw [describeTableOp, hdb, hfault]
    cases hfind : env.db.tables.find? (fun t => t.name == name) with
    | none => exact ⟨_, rfl⟩
    | some t => exact ⟨_, rfl⟩

/-- Claim C1 witness: the amended claim instantiated: list_tables raises at a
missing file, an allowed query whose driver raises returns the SQL-error
document rather than propagating the driver fault, and a catalog fault with
the file present propagates uncaught out of list_tables. -/
theorem claim_C1_witness :
    listTablesOp envNoDb = .error .fileNotFound ∧
    (queryOp envBoom "SELECT x FROM t").1.1 = .ok (.errorDoc ("SQL error: " ++ "boom")) ∧
    listTablesOp envLocked = .error (.driverError "database is locked") :=
  ⟨(claim_C1_amended.1 envNoDb rfl).1,
   claim_C1_amended.2.2.1 envBoom "SELECT x FROM t" "boom" rfl rfl (by decide),
   (claim_C1_amended.2.2.2.2.1 envLocked "database is locked" rfl rfl).1⟩

/-- Claim C1 counterexample: two failure modes the claim asserts are
converted to documents in fact escape as exceptions.  With the backing
database file absent, all four operations propagate the FileNotFoundError of
get_connection, acquired outside every try block; and with the file present
but the catalog interactions faulting (a locked database), list_tables,
get_schema and describe_table propagate the driver exception, their try
blocks having a finally but no except clause. -/
theorem claim_C1_counterexample :
    listTablesOp envNoDb = .error .fileNotFound ∧
    describeTableOp envNoDb "users" = (.error .fileNotFound, []) ∧
    getSchemaOp envNoDb = .error .fileNotFound ∧
    (queryOp envNoDb "SELECT 1").1.1 = .error .fileNotFound ∧
    listTablesOp envLocked = .error (.driverError "database is locked") ∧
    getSchemaOp envLocked = .error (.driverError "database is locked") ∧
    (describeTableOp envLocked "users").1 = .error (.driverError "database is locked") := by
  refine ⟨by decide, by decide, by decide, by decide, by decide, by decide, by decide⟩
